import Mathlib

/-!
Verification development for the AIODesa schema-derivation and
statement-generation engine (`aiodesa/Database.py`, `aiodesa/utils/table.py`,
`aiodesa/utils/util_types.py`).

The Python source is shallowly embedded: record types (dataclasses) become
explicit field lists, the SQLite storage collaborator becomes an in-memory
table model (a table is a column list plus a list of rows; `NULL` is an
explicit scalar), and each bound CRUD closure becomes a function from the
facade state and the invocation's positional/keyword arguments to the produced
SQL statement, its bound parameters, and the successor state.  Fallible Python
code (TypeError / AttributeError / KeyError / IndexError / ValueError and
database-driver errors) is modelled with `Except`.
-/

deriving instance DecidableEq for Except

namespace AIODesa

/-- SQL-storable scalar values: the value universe that can sit in a table
cell or be bound as a statement parameter.  `sNone` is Python `None` /
SQL `NULL`. -/
inductive Scalar where
  | sNone
  | sInt (n : Int)
  | sStr (s : String)
  | sBool (b : Bool)
deriving DecidableEq, Repr

/-- Python runtime values as they occur in this library: scalars, plus flat
tuples of scalars (result rows leak into record construction through
`data_class(*username_tuple, *results[1:])` in `Db.find`). -/
inductive Val where
  | scalar (s : Scalar)
  | vTuple (vs : List Scalar)
deriving DecidableEq, Repr

/-- Python `None` as a `Val`. -/
def vNone : Val := .scalar .sNone

/-- A Python string value. -/
def vStr (s : String) : Val := .scalar (.sStr s)

/-- A Python integer value. -/
def vInt (n : Int) : Val := .scalar (.sInt n)

/-- A single-quote character, used by Python `repr` of strings. -/
def sq : String := (Char.ofNat 39).toString

/-- Python `repr` of a scalar (as used inside `str` of a tuple).  String
escaping of embedded quotes is not modelled; the claims never exercise it. -/
def Scalar.pyRepr : Scalar → String
  | .sNone => "None"
  | .sInt n => toString n
  | .sStr s => sq ++ s ++ sq
  | .sBool b => if b then "True" else "False"

/-- Python `str` of a scalar. -/
def Scalar.pyStr : Scalar → String
  | .sNone => "None"
  | .sInt n => toString n
  | .sStr s => s
  | .sBool b => if b then "True" else "False"

/-- Python `str` of a value, as interpolated by an f-string. -/
def Val.pyStr : Val → String
  | .scalar s => s.pyStr
  | .vTuple [x] => "(" ++ x.pyRepr ++ ",)"
  | .vTuple xs => "(" ++ String.intercalate ", " (xs.map Scalar.pyRepr) ++ ")"

/-- Python type annotations occurring on record fields: the builtin
primitives, `None`, a representative unsupported type (`complex`), and a
two-armed `X | Y` union (`types.UnionType` with exactly two arguments, the
only arity the source inspects). -/
inductive PyType where
  | pInt
  | pStr
  | pFloat
  | pBool
  | pBytes
  | pBytearray
  | pList
  | pTuple
  | pSet
  | pDict
  | pNone
  | pComplex
  | pUnion (a b : PyType)
deriving DecidableEq, Repr

/-- Embedding of `py_to_sql_type` from `aiodesa/utils/util_types.py` (the
variant exercised by the repository's `tests/test_types.py`).  A two-armed
union is unwrapped to its non-null arm first (`tmp[0]() is None` holds
exactly for `NoneType` among the types modelled here); then the builtin
primitives map to fixed tokens and anything else raises
`ValueError("Unsupported data type: ...")`, modelled as `Except.error`. -/
def py_to_sql_type (data : PyType) : Except String String :=
  let data : PyType := match data with
    | .pUnion a b => if a = .pNone then b else if b = .pNone then a else .pUnion a b
    | d => d
  match data with
  | .pInt => .ok "INT"
  | .pStr => .ok "VARCHAR"
  | .pFloat => .ok "FLOAT"
  | .pBool => .ok "BOOLEAN"
  | .pBytes => .ok "TEXT"
  | .pBytearray => .ok "TEXT"
  | .pList => .ok "TEXT"
  | .pTuple => .ok "TEXT"
  | .pSet => .ok "TEXT"
  | .pDict => .ok "TEXT"
  | .pNone => .ok "NULL"
  | _ => .error "Unsupported data type"

/-- One declared dataclass field: its name, its annotated type, and its
default value (`none` when the field has no default). -/
structure Field where
  name : String
  ty : PyType
  default : Option Val
deriving DecidableEq, Repr

/-- A record type (a Python dataclass as this library uses them): the
declared fields in declaration order, plus the class attributes the
`set_key` decorator may have attached (`primary_key`, `unique_key`,
`foreign_keys`). -/
structure RecordType where
  fields : List Field
  primary_key : Option String := none
  unique_key : Option String := none
  foreign_keys : List (String × String) := []
deriving DecidableEq, Repr

/-- `TableSchema` from `aiodesa/utils/table.py`. -/
structure TableSchema where
  table_name : String
  data : String
deriving DecidableEq, Repr

/-- `name.replace(" ", "_")`: for a one-character pattern this is exactly a
per-character substitution, which is how it is embedded (the library's
`String.replace` does not evaluate inside the kernel). -/
def replaceSpaces (s : String) : String :=
  String.mk (s.data.map (fun c => if c = ' ' then '_' else c))

/-- The column-rendering loop of `make_schema`: iterate declared fields in
declaration order, skip `table_name`, emit `"<name> <sqltype>"`, propagating
the `ValueError` of `py_to_sql_type`. -/
def schemaColumns : List Field → Except String (List String)
  | [] => .ok []
  | f :: fs =>
    if f.name = "table_name" then schemaColumns fs
    else do
      let t ← py_to_sql_type f.ty
      let rest ← schemaColumns fs
      .ok ((f.name ++ " " ++ t) :: rest)

/-- Embedding of `make_schema` from `aiodesa/utils/table.py`: normalize the
name (spaces to underscores), render the columns, append `PRIMARY KEY (c)` /
`UNIQUE (c)` clauses when the class carries those attributes, and wrap in
`CREATE TABLE IF NOT EXISTS <name> (\n<columns>\n);`.  Foreign keys are
never consulted. -/
def make_schema (name : String) (data_cls : RecordType) : Except String TableSchema := do
  let name := replaceSpaces name
  let cols ← schemaColumns data_cls.fields
  let cols := cols ++ (match data_cls.primary_key with
    | some c => ["PRIMARY KEY (" ++ c ++ ")"]
    | none => [])
  let cols := cols ++ (match data_cls.unique_key with
    | some c => ["UNIQUE (" ++ c ++ ")"]
    | none => [])
  .ok ⟨name, "CREATE TABLE IF NOT EXISTS " ++ name ++ " (\n" ++
    String.intercalate ", " cols ++ "\n);"⟩

/-- Python exception kinds distinguished by this development. -/
inductive PyError where
  | typeError
  | attributeError
  | keyError
  | indexError
  | valueError (msg : String)
  | sqlError (msg : String)
deriving DecidableEq, Repr

/-- Association-list lookup (first match): Python `dict` access and
name-to-value lookups. -/
def dictGet {α β : Type} [DecidableEq α] : List (α × β) → α → Option β
  | [], _ => none
  | p :: rest, key => if p.1 = key then some p.2 else dictGet rest key

/-- Association-list overwrite-or-append: Python `dict` assignment. -/
def dictSet {α β : Type} [DecidableEq α] : List (α × β) → α → β → List (α × β)
  | [], k, v => [(k, v)]
  | p :: rest, k, v =>
    if p.1 = k then (k, v) :: rest else p :: dictSet rest k v

/-- Effectful map over `Except`, stopping at the first error (parameter
binding in the driver). -/
def mapExcept {α β : Type} (f : α → Except PyError β) : List α → Except PyError (List β)
  | [] => .ok []
  | a :: as => do
    let b ← f a
    let bs ← mapExcept f as
    .ok (b :: bs)

/-- A constructed dataclass instance: field name / value pairs in field
declaration order. -/
abbrev Inst := List (String × Val)

/-- Call binding for `cls(*args, **kwargs)` on a dataclass: positional
arguments bind the leading fields in declaration order (a keyword repeating a
positionally-bound field is a `TypeError`, as is a surplus positional
argument); remaining fields take their keyword argument or their default, and
a remaining field with neither raises `TypeError`. -/
def bindFields : List Field → List Val → List (String × Val) →
    Except PyError (List (String × Val))
  | [], [], _ => .ok []
  | [], _ :: _, _ => .error .typeError
  | f :: fs, a :: as, kw =>
    if (dictGet kw f.name).isSome then .error .typeError
    else do
      let rest ← bindFields fs as kw
      .ok ((f.name, a) :: rest)
  | f :: fs, [], kw =>
    match dictGet kw f.name with
    | some v => do
      let rest ← bindFields fs [] kw
      .ok ((f.name, v) :: rest)
    | none =>
      match f.default with
      | some d => do
        let rest ← bindFields fs [] kw
        .ok ((f.name, d) :: rest)
      | none => .error .typeError

/-- `cls(*args, **kwargs)`: a keyword argument naming no declared field is a
`TypeError`; otherwise bind as in `bindFields`. -/
def construct (rt : RecordType) (args : List Val) (kwargs : List (String × Val)) :
    Except PyError Inst :=
  if kwargs.any (fun kv => rt.fields.all (fun f => f.name != kv.1)) then .error .typeError
  else bindFields rt.fields args kwargs

/-- The class attribute `cls.table_name`: dataclasses expose a field's default
as a class attribute, so this is the default of the (first) field named
`table_name`; absent when there is no such defaulted field
(`AttributeError` at the use sites). -/
def classAttrTableName (rt : RecordType) : Option Val :=
  (rt.fields.find? (fun f => f.name == "table_name")).bind (fun f => f.default)

/-- The column names of the table a record type describes: every declared
field except `table_name`, in declaration order. -/
def columnsOf (rt : RecordType) : List String :=
  (rt.fields.filter (fun f => f.name != "table_name")).map (fun f => f.name)

/-- One database table: its column names and its rows (a cell holds `sNone`
for SQL `NULL`). -/
structure Table where
  cols : List String
  rows : List (List Scalar)
deriving DecidableEq, Repr

/-- The `Db` facade state: connection flag, the record registry `self.tables`
(keyed by the Python value of `cls.table_name`), the storage collaborator's
catalog of tables, and the log of DDL scripts issued to the driver. -/
structure DbState where
  connected : Bool
  tables : List (Val × RecordType)
  storage : List (String × Table)
  ddlLog : List String
deriving DecidableEq, Repr

/-- Binding a Python value as a `?` parameter: scalars bind, anything else is
rejected by the driver. -/
def toScalar : Val → Except PyError Scalar
  | .scalar s => .ok s
  | .vTuple _ => .error (.sqlError "unsupported parameter type")

/-- SQL `=` comparison of a cell with a bound parameter: `NULL` compares
equal to nothing (not even `NULL`); otherwise plain value equality.
(SQLite's numeric affinity between integers and booleans is not modelled;
no claim compares across those types.) -/
def sqlEq (a b : Scalar) : Bool := a != .sNone && b != .sNone && a == b

/-- The cell of `row` in column `c`, given the table's column list. -/
def rowGet (cols : List String) (row : List Scalar) (c : String) : Option Scalar :=
  dictGet (cols.zip row) c

/-- Driver execution of `INSERT INTO tname (cols) VALUES (placeholders)`:
requires a live connection (a `None` connection raises `AttributeError`), an
existing table, at least one column (`INSERT INTO t () VALUES ()` is an SQL
syntax error), known columns, and scalar parameters; appends one row in which
unmentioned columns are `NULL`. -/
def execInsert (st : DbState) (tname : String) (cols : List String) (vals : List Val) :
    Except PyError DbState :=
  if !st.connected then .error .attributeError
  else match dictGet st.storage tname with
  | none => .error (.sqlError "no such table")
  | some tbl =>
    if cols.isEmpty then .error (.sqlError "syntax error")
    else if cols.any (fun c => tbl.cols.all (fun c2 => c2 != c)) then
      .error (.sqlError "no such column")
    else do
      let svals ← mapExcept toScalar vals
      let row := tbl.cols.map (fun c => (dictGet (cols.zip svals) c).getD .sNone)
      .ok { st with storage := dictSet st.storage tname { tbl with rows := tbl.rows ++ [row] } }

/-- Driver execution of `UPDATE tname SET c1 = ?, ... WHERE ident = ?`:
an empty SET list is an SQL syntax error; every row whose `ident` cell equals
the bound identifier value gets the SET columns overwritten, all other rows
and columns are untouched. -/
def execUpdate (st : DbState) (tname : String) (sets : List (String × Val))
    (ident : String) (identVal : Val) : Except PyError DbState :=
  if !st.connected then .error .attributeError
  else match dictGet st.storage tname with
  | none => .error (.sqlError "no such table")
  | some tbl =>
    if sets.isEmpty then .error (.sqlError "syntax error")
    else if sets.any (fun s => tbl.cols.all (fun c2 => c2 != s.1)) then
      .error (.sqlError "no such column")
    else if tbl.cols.all (fun c2 => c2 != ident) then .error (.sqlError "no such column")
    else do
      let ssets ← mapExcept (fun s => do
        let v ← toScalar s.2
        pure (s.1, v)) sets
      let iv ← toScalar identVal
      let newRows := tbl.rows.map (fun r =>
        match rowGet tbl.cols r ident with
        | some cell =>
          if sqlEq cell iv then (tbl.cols.zip r).map (fun p => (dictGet ssets p.1).getD p.2)
          else r
        | none => r)
      .ok { st with storage := dictSet st.storage tname { tbl with rows := newRows } }

/-- Driver execution of `SELECT * FROM tname WHERE ident = ?`: the matching
rows, in storage order. -/
def execSelect (st : DbState) (tname : String) (ident : String) (identVal : Val) :
    Except PyError (List (List Scalar)) :=
  if !st.connected then .error .attributeError
  else match dictGet st.storage tname with
  | none => .error (.sqlError "no such table")
  | some tbl =>
    if tbl.cols.all (fun c2 => c2 != ident) then .error (.sqlError "no such column")
    else do
      let iv ← toScalar identVal
      .ok (tbl.rows.filter (fun r =>
        match rowGet tbl.cols r ident with
        | some cell => sqlEq cell iv
        | none => false))

/-- Driver execution of `DELETE FROM tname WHERE ident = ?`: removes exactly
the matching rows. -/
def execDelete (st : DbState) (tname : String) (ident : String) (identVal : Val) :
    Except PyError DbState :=
  if !st.connected then .error .attributeError
  else match dictGet st.storage tname with
  | none => .error (.sqlError "no such table")
  | some tbl =>
    if tbl.cols.all (fun c2 => c2 != ident) then .error (.sqlError "no such column")
    else do
      let iv ← toScalar identVal
      let newRows := tbl.rows.filter (fun r =>
        match rowGet tbl.cols r ident with
        | some cell => !sqlEq cell iv
        | none => true)
      .ok { st with storage := dictSet st.storage tname { tbl with rows := newRows } }

/-- An executed parameterized statement: its SQL text and bound parameters. -/
structure Statement where
  sql : String
  params : List Val
deriving DecidableEq, Repr

/-- Raising a Python exception on a failed lookup: `orErr o e` is the value
behind `o`, or the exception `e` when `o` is `none`. -/
def orErr {α : Type} : Option α → PyError → Except PyError α
  | some a, _ => .ok a
  | none, e => .error e

/-- `Db.insert(data_class)(*args, **kwargs)`, builder and invocation
flattened into one call.  Follows `Database.py` lines 192-206: construct the
record from the registry entry for `data_class.table_name`; keep each field
whose value `is not None and != data_cls.table_name` (the instance's
table-name value); render `INSERT INTO <data_class.table_name> (<cols>)
VALUES (<placeholders>);`, execute with the kept values bound, commit. -/
def Db.insert (st : DbState) (data_class : RecordType) (args : List Val)
    (kwargs : List (String × Val)) : Except PyError (Statement × DbState) := do
  let tnAttr ← orErr (classAttrTableName data_class) .attributeError
  let rt ← orErr (dictGet st.tables tnAttr) .keyError
  let inst ← construct rt args kwargs
  let tnInst ← orErr (dictGet inst "table_name") .attributeError
  let field_vals := inst.filter (fun nv => nv.2 != vNone && nv.2 != tnInst)
  let cols := field_vals.map (fun nv => nv.1)
  let vals := field_vals.map (fun nv => nv.2)
  let sql := "INSERT INTO " ++ tnAttr.pyStr ++ " (" ++ String.intercalate ", " cols ++
    ") VALUES (" ++ String.intercalate ", " (vals.map (fun _ => "?")) ++ ");"
  let st' ← execInsert st tnAttr.pyStr cols vals
  .ok (⟨sql, vals⟩, st')

/-- `Db.update(data_class, column_identifier)(*args, **kwargs)`, flattened.
Follows `Database.py` lines 247-265: SET clauses come from the keyword
arguments alone, in order; the value appended as the final parameter is the
constructed instance's `username` attribute (hardcoded in the source); the
WHERE column is `column_identifier` if supplied, else the class's
`primary_key`. -/
def Db.update (st : DbState) (data_class : RecordType) (column_identifier : Option String)
    (args : List Val) (kwargs : List (String × Val)) : Except PyError (Statement × DbState) := do
  let tnAttr ← orErr (classAttrTableName data_class) .attributeError
  let rt ← orErr (dictGet st.tables tnAttr) .keyError
  let inst ← construct rt args kwargs
  let values := kwargs.map (fun kv => kv.2)
  let set_clauses := kwargs.map (fun kv => kv.1 ++ " = ?")
  let set_clause_string := String.intercalate ", " set_clauses
  let uname ← orErr (dictGet inst "username") .attributeError
  let values := values ++ [uname]
  let identifier ← orErr (column_identifier.or rt.primary_key) .attributeError
  let sql := "UPDATE " ++ tnAttr.pyStr ++ " SET " ++ set_clause_string ++
    " WHERE " ++ identifier ++ " = ?"
  let st' ← execUpdate st tnAttr.pyStr kwargs identifier uname
  .ok (⟨sql, values⟩, st')

/-- `Db.find(data_class, column_identifier)(*args, **kwargs)`, flattened.
Follows `Database.py` lines 307-322: the queried table name is the
constructed instance's `table_name` value; the single bound parameter is
`args[0]` (`IndexError` when absent); `results[0]` of the fetch raises
`IndexError` on an empty result; the returned record is
`data_class(*results[0], *results[1:])` — the remaining result rows are
passed as additional positional constructor arguments (as tuples). -/
def Db.find (st : DbState) (data_class : RecordType) (column_identifier : Option String)
    (args : List Val) (kwargs : List (String × Val)) : Except PyError (Statement × Inst) := do
  let tnAttr ← orErr (classAttrTableName data_class) .attributeError
  let rt ← orErr (dictGet st.tables tnAttr) .keyError
  let inst ← construct rt args kwargs
  let identifier ← orErr (column_identifier.or rt.primary_key) .attributeError
  let tnInst ← orErr (dictGet inst "table_name") .attributeError
  let sql := "SELECT * FROM " ++ tnInst.pyStr ++ " WHERE " ++ identifier ++ " = ?"
  let arg0 ← orErr args.head? .indexError
  let results ← execSelect st tnInst.pyStr identifier arg0
  let row0 ← orErr results.head? .indexError
  let res ← construct data_class (row0.map Val.scalar ++ (results.drop 1).map Val.vTuple) []
  .ok (⟨sql, [arg0]⟩, res)

/-- `Db.delete(data_class, column_identifier)(*args, **kwargs)`, flattened.
Follows `Database.py` lines 359-372. -/
def Db.delete (st : DbState) (data_class : RecordType) (column_identifier : Option String)
    (args : List Val) (kwargs : List (String × Val)) : Except PyError (Statement × DbState) := do
  let tnAttr ← orErr (classAttrTableName data_class) .attributeError
  let rt ← orErr (dictGet st.tables tnAttr) .keyError
  let inst ← construct rt args kwargs
  let identifier ← orErr (column_identifier.or rt.primary_key) .attributeError
  let tnInst ← orErr (dictGet inst "table_name") .attributeError
  let sql := "DELETE FROM " ++ tnInst.pyStr ++ " WHERE " ++ identifier ++ " = ?"
  let arg0 ← orErr args.head? .indexError
  let st' ← execDelete st tnInst.pyStr identifier arg0
  .ok (⟨sql, [arg0]⟩, st')

/-- `Db.table_exists(table_name)`: with a live connection, an exact-name
catalog lookup (`SELECT name FROM sqlite_master WHERE type='table' AND
name=?`); `None` when not connected. -/
def table_exists (st : DbState) (table_name : String) : Option Bool :=
  if st.connected then some ((dictGet st.storage table_name).isSome) else none

/-- `Db.create_table(named_data, name)`: with a live connection, when
`table_exists(name)` is falsy, run the DDL through `executescript` and
commit.  Executing the generated `CREATE TABLE IF NOT EXISTS` script is
modelled structurally: it is logged, and it creates the table under the DDL's
own (normalized) name when absent. -/
def create_table (st : DbState) (named_data : TableSchema) (name : String)
    (cols : List String) : DbState :=
  if st.connected then
    if (dictGet st.storage name).isSome then st
    else
      let st := { st with ddlLog := st.ddlLog ++ [named_data.data] }
      if (dictGet st.storage named_data.table_name).isSome then st
      else { st with storage := dictSet st.storage named_data.table_name ⟨cols, []⟩ }
  else st

/-- The argument of `Db.read_table_schemas`: one dataclass or a tuple of
them. -/
inductive SchemaInput where
  | single (rt : RecordType)
  | tup (rts : List RecordType)
deriving Repr

/-- The body of `read_table_schemas`' per-field loop: for a field named
`table_name`, derive the schema from `str(field.default)` and call
`create_table(schema_, field.name)` — note the literal field name
`"table_name"` is what gets passed as the existence-check name.  (A
`table_name` field without a default cannot reach this point: the class
attribute lookup would already have failed.) -/
def regFieldStep (rt : RecordType) (st : DbState) (f : Field) : DbState × Option PyError :=
  if f.name == "table_name" then
    match f.default with
    | some d =>
      match make_schema d.pyStr rt with
      | .error msg => (st, some (.valueError msg))
      | .ok schema_ => (create_table st schema_ f.name (columnsOf rt), none)
    | none => (st, none)
  else (st, none)

/-- The `for field in class_fields` loop of `read_table_schemas`, with an
exception aborting the loop. -/
def regFields (rt : RecordType) : DbState → List Field → DbState × Option PyError
  | st, [] => (st, none)
  | st, f :: fs =>
    match regFieldStep rt st f with
    | (st', none) => regFields rt st' fs
    | (st', some e) => (st', some e)

/-- `Db.read_table_schemas(schema)`, `Database.py` lines 42-89.  The first
statement is `self.tables[schema.table_name] = schema`: a tuple argument has
no `table_name` attribute, so it raises `AttributeError` before any effect;
a dataclass stores its registry entry and then walks its fields.  The
result pairs the post-call facade state with the raised exception, if any. -/
def read_table_schemas (st : DbState) (schema : SchemaInput) : DbState × Option PyError :=
  match schema with
  | .tup _ => (st, some .attributeError)
  | .single rt =>
    match classAttrTableName rt with
    | none => (st, some .attributeError)
    | some tnVal =>
      let st := { st with tables := dictSet st.tables tnVal rt }
      regFields rt st rt.fields

/-- Is a type annotation not a union?  (Python flattens nested unions, so a
two-armed `types.UnionType` always has non-union arms; `pUnion` nested under
`pUnion` corresponds to no real annotation.) -/
def PyType.atomic : PyType → Bool
  | .pUnion _ _ => false
  | _ => true

/-- Rendering of the column tokens, following the spec's words for claim C8:
map `py_to_sql_type` over the fields (the caller passes the non-`table_name`
fields in declaration order), failing when any field's type is unsupported. -/
def specColumnToks : List Field → Except String (List String)
  | [] => .ok []
  | f :: fs => do
    let t ← py_to_sql_type f.ty
    let rest ← specColumnToks fs
    .ok (t :: rest)

/-- Rendering of the full DDL, following the spec's words for claim C8: the
non-`table_name` fields in declaration order as `"<name> <token>"`, then a
`PRIMARY KEY (c)` clause exactly when a primary key is declared, then a
`UNIQUE (c)` clause exactly when a unique key is declared, joined by `", "`
inside `CREATE TABLE IF NOT EXISTS <normalized name> (\n...\n);`. -/
def specSchemaDdl (name : String) (rt : RecordType) (toks : List String) : String :=
  let nm := replaceSpaces name
  let cols := List.zipWith (fun f t => f.name ++ " " ++ t)
    (rt.fields.filter (fun f => f.name != "table_name")) toks
  let cols := cols ++ (match rt.primary_key with
    | some c => ["PRIMARY KEY (" ++ c ++ ")"]
    | none => [])
  let cols := cols ++ (match rt.unique_key with
    | some c => ["UNIQUE (" ++ c ++ ")"]
    | none => [])
  "CREATE TABLE IF NOT EXISTS " ++ nm ++ " (\n" ++ String.intercalate ", " cols ++ "\n);"

/-! ### Concrete fixtures used by counterexamples and witnesses -/

/-- A `users` record type: `username: str | None = None` (primary key),
`nickname: str | None = None`, `table_name: str = "users"`. -/
def usersRt : RecordType :=
  ⟨[⟨"username", .pUnion .pStr .pNone, some vNone⟩,
    ⟨"nickname", .pUnion .pStr .pNone, some vNone⟩,
    ⟨"table_name", .pStr, some (vStr "users")⟩], some "username", none, []⟩

/-- Facade state with `usersRt` registered and an empty `users` table. -/
def usersSt : DbState :=
  ⟨true, [(vStr "users", usersRt)], [("users", ⟨["username", "nickname"], []⟩)], []⟩

/-- A record type whose primary key `id` is not named `username`:
`id: int | None = None` (primary key), `username: str | None = None`,
`table_name: str = "t"`. -/
def idUserRt : RecordType :=
  ⟨[⟨"id", .pUnion .pInt .pNone, some vNone⟩,
    ⟨"username", .pUnion .pStr .pNone, some vNone⟩,
    ⟨"table_name", .pStr, some (vStr "t")⟩], some "id", none, []⟩

/-- Facade state with `idUserRt` registered and one stored row `(5, "al")`. -/
def idUserSt : DbState :=
  ⟨true, [(vStr "t", idUserRt)], [("t", ⟨["id", "username"], [[.sInt 5, .sStr "al"]]⟩)], []⟩

/-- A keyless record type `a, b : str | None = None`, `table_name = "t2"`. -/
def abRt : RecordType :=
  ⟨[⟨"a", .pUnion .pStr .pNone, some vNone⟩,
    ⟨"b", .pUnion .pStr .pNone, some vNone⟩,
    ⟨"table_name", .pStr, some (vStr "t2")⟩], none, none, []⟩

/-- Facade state with `abRt` registered and two rows sharing `a = "x"`. -/
def abSt : DbState :=
  ⟨true, [(vStr "t2", abRt)],
    [("t2", ⟨["a", "b"], [[.sStr "x", .sStr "1"], [.sStr "x", .sStr "2"]]⟩)], []⟩

/-- A record type with a field of unsupported type `complex`. -/
def badRt : RecordType :=
  ⟨[⟨"z", .pComplex, none⟩, ⟨"table_name", .pStr, some (vStr "bad")⟩], none, none, []⟩

/-- A connected facade with empty registry and storage. -/
def emptySt : DbState := ⟨true, [], [], []⟩

/-- Like `usersSt` but the storage also holds a table named `evil`. -/
def evilSt : DbState :=
  ⟨true, [(vStr "users", usersRt)],
    [("users", ⟨["username", "nickname"], []⟩), ("evil", ⟨["username", "nickname"], []⟩)], []⟩

/-- Like `usersSt` but with one stored row `("al", "nick")`. -/
def rowSt : DbState :=
  ⟨true, [(vStr "users", usersRt)],
    [("users", ⟨["username", "nickname"], [[.sStr "al", .sStr "nick"]]⟩)], []⟩

/-! ### Helper lemmas -/

theorem orErr_some {α : Type} (a : α) (e : PyError) : orErr (some a) e = .ok a := rfl

theorem orErr_none {α : Type} (e : PyError) : orErr (none : Option α) e = .error e := rfl

theorem ok_bind {ε α β : Type} (a : α) (f : α → Except ε β) :
    (Except.ok a >>= f) = f a := rfl

theorem error_bind {ε α β : Type} (e : ε) (f : α → Except ε β) :
    ((Except.error e : Except ε α) >>= f) = .error e := rfl

theorem bind_eq_ok_iff {ε α β : Type} {e : Except ε α} {f : α → Except ε β} {b : β} :
    (e >>= f) = .ok b ↔ ∃ a, e = .ok a ∧ f a = .ok b := by
  cases e with
  | error err => rw [error_bind]; simp
  | ok a => rw [ok_bind]; simp

theorem dictGet_append_left_none {α β : Type} [DecidableEq α] (m1 m2 : List (α × β)) (k : α)
    (h : ∀ p ∈ m1, p.1 ≠ k) : dictGet (m1 ++ m2) k = dictGet m2 k := by
  induction m1 with
  | nil => rfl
  | cons p m1 ih =>
    rw [List.cons_append]
    show (if p.1 = k then some p.2 else dictGet (m1 ++ m2) k) = dictGet m2 k
    rw [if_neg (h p (by simp))]
    exact ih (fun q hq => h q (by simp [hq]))

theorem dictGet_dictSet_self {α β : Type} [DecidableEq α] (m : List (α × β)) (k : α) (v : β) :
    dictGet (dictSet m k v) k = some v := by
  induction m with
  | nil => simp [dictSet, dictGet]
  | cons p m ih =>
    by_cases h : p.1 = k
    · simp [dictSet, h, dictGet]
    · simp [dictSet, h, dictGet, ih]

theorem dictGet_dictSet_ne {α β : Type} [DecidableEq α] (m : List (α × β)) (k k' : α) (v : β)
    (h : k' ≠ k) : dictGet (dictSet m k v) k' = dictGet m k' := by
  have hkk : ¬ (k = k') := fun h2 => h h2.symm
  induction m with
  | nil => simp [dictSet, dictGet, hkk]
  | cons p m ih =>
    by_cases hp : p.1 = k
    · have hp' : ¬ (p.1 = k') := by rw [hp]; exact hkk
      simp [dictSet, hp, dictGet, hkk, hp']
    · simp only [dictSet, hp, if_false, dictGet, ih]

theorem dictGet_eq_some_mem {α β : Type} [DecidableEq α] {m : List (α × β)} {k : α} {v : β}
    (h : dictGet m k = some v) : (k, v) ∈ m := by
  induction m with
  | nil => simp [dictGet] at h
  | cons p m ih =>
    by_cases hp : p.1 = k
    · simp [dictGet, hp] at h
      have hpv : p = (k, v) := by
        obtain ⟨p1, p2⟩ := p
        simp_all
      subst hpv
      exact List.mem_cons_self _ _
    · simp only [dictGet, hp, if_false] at h
      exact List.mem_cons_of_mem _ (ih h)

theorem mapExcept_map_scalar (vs : List Scalar) :
    mapExcept toScalar (vs.map Val.scalar) = .ok vs := by
  induction vs with
  | nil => rfl
  | cons v vt ih => simp only [List.map_cons, mapExcept, toScalar, ok_bind, ih]

theorem map_dictGet_zip (ns : List String) (vs : List Scalar) (h : ns.Nodup)
    (hl : ns.length = vs.length) :
    ns.map (fun c => (dictGet (ns.zip vs) c).getD .sNone) = vs := by
  induction ns generalizing vs with
  | nil => cases vs with
    | nil => rfl
    | cons v vt => simp at hl
  | cons n nt ih =>
    cases vs with
    | nil => simp at hl
    | cons v vt =>
      have hn : n ∉ nt := (List.nodup_cons.mp h).1
      have ht : nt.Nodup := (List.nodup_cons.mp h).2
      simp only [List.zip_cons_cons, List.map_cons]
      have hhead : (dictGet ((n, v) :: nt.zip vt) n).getD .sNone = v := by
        simp [dictGet]
      rw [hhead]
      have htail : ∀ c ∈ nt,
          (dictGet ((n, v) :: nt.zip vt) c).getD .sNone =
          (dictGet (nt.zip vt) c).getD .sNone := by
        intro c hc
        have hne : n ≠ c := fun hnc => hn (hnc ▸ hc)
        simp [dictGet, hne]
      rw [List.map_congr_left htail, ih vt ht (by simpa using hl)]

theorem bindFields_positional_tail (l : List Field) (tnf : Field) (d : Val)
    (hd : tnf.default = some d) :
    ∀ (args : List Val), args.length = l.length →
    bindFields (l ++ [tnf]) args [] =
      .ok ((l.map (fun f => f.name)).zip args ++ [(tnf.name, d)]) := by
  induction l with
  | nil =>
    intro args hl
    cases args with
    | nil => simp [bindFields, dictGet, hd, ok_bind]
    | cons a as => simp at hl
  | cons f l ih =>
    intro args hl
    cases args with
    | nil => simp at hl
    | cons a as =>
      rw [List.cons_append]
      simp only [bindFields, dictGet, Option.isSome_none, Bool.false_eq_true, if_false]
      rw [ih as (by simpa using hl)]
      simp [ok_bind]

theorem bindFields_defaults (l : List Field) (hdef : ∀ f ∈ l, (f.default).isSome) :
    bindFields l [] [] = .ok (l.map (fun f => (f.name, (f.default).getD vNone))) := by
  induction l with
  | nil => rfl
  | cons f l ih =>
    obtain ⟨d, hd⟩ := Option.isSome_iff_exists.mp (hdef f (by simp))
    simp only [bindFields, dictGet, hd]
    rw [ih (fun g hg => hdef g (by simp [hg]))]
    simp [ok_bind, hd]

theorem bindFields_names : ∀ (l : List Field) (args : List Val) (kw : List (String × Val))
    (m : List (String × Val)), bindFields l args kw = .ok m →
    m.map Prod.fst = l.map (fun f => f.name) := by
  intro l
  induction l with
  | nil =>
    intro args kw m h
    cases args with
    | nil =>
      simp only [bindFields, Except.ok.injEq] at h
      subst h
      rfl
    | cons a as => simp [bindFields] at h
  | cons f l ih =>
    intro args kw m h
    cases args with
    | cons a as =>
      simp only [bindFields] at h
      by_cases hk : (dictGet kw f.name).isSome
      · rw [if_pos hk] at h
        simp at h
      · rw [if_neg hk] at h
        obtain ⟨rest, h1, h2⟩ := bind_eq_ok_iff.mp h
        simp only [Except.ok.injEq] at h2
        subst h2
        simp [ih as kw rest h1]
    | nil =>
      simp only [bindFields] at h
      cases hkw : dictGet kw f.name with
      | some v =>
        rw [hkw] at h
        obtain ⟨rest, h1, h2⟩ := bind_eq_ok_iff.mp h
        simp only [Except.ok.injEq] at h2
        subst h2
        simp [ih [] kw rest h1]
      | none =>
        rw [hkw] at h
        cases hd : f.default with
        | some d =>
          rw [hd] at h
          obtain ⟨rest, h1, h2⟩ := bind_eq_ok_iff.mp h
          simp only [Except.ok.injEq] at h2
          subst h2
          simp [ih [] kw rest h1]
        | none =>
          rw [hd] at h
          simp at h

theorem construct_ok_names {rt : RecordType} {args : List Val} {kwargs : List (String × Val)}
    {inst : Inst} (h : construct rt args kwargs = .ok inst) :
    inst.map Prod.fst = rt.fields.map (fun f => f.name) := by
  unfold construct at h
  by_cases hk : kwargs.any (fun kv => rt.fields.all (fun f => f.name != kv.1))
  · rw [if_pos hk] at h
    simp at h
  · rw [if_neg hk] at h
    exact bindFields_names _ _ _ _ h

theorem construct_positional (rt : RecordType) (l : List Field) (tnf : Field) (d : Val)
    (hf : rt.fields = l ++ [tnf]) (hd : tnf.default = some d) (args : List Val)
    (hl : args.length = l.length) :
    construct rt args [] = .ok ((l.map (fun f => f.name)).zip args ++ [(tnf.name, d)]) := by
  unfold construct
  simp only [List.any_nil, Bool.false_eq_true, if_false, hf]
  exact bindFields_positional_tail l tnf d hd args hl

theorem construct_single_arg (rt : RecordType) (f0 : Field) (l : List Field) (tnf : Field)
    (d : Val) (hf : rt.fields = f0 :: (l ++ [tnf])) (hd : tnf.default = some d)
    (hdef : ∀ f ∈ l, (f.default).isSome) (a : Val) :
    construct rt [a] [] =
      .ok ((f0.name, a) ::
        (l.map (fun f => (f.name, (f.default).getD vNone)) ++ [(tnf.name, d)])) := by
  unfold construct
  simp only [List.any_nil, Bool.false_eq_true, if_false, hf]
  simp only [bindFields, dictGet, Option.isSome_none, Bool.false_eq_true, if_false]
  have hdef2 : ∀ f ∈ l ++ [tnf], (f.default).isSome := by
    intro f hfm
    rcases List.mem_append.mp hfm with h1 | h1
    · exact hdef f h1
    · simp at h1
      subst h1
      simp [hd]
  rw [bindFields_defaults (l ++ [tnf]) hdef2]
  simp [ok_bind, hd]

theorem all_ne_eq_false_of_mem {c : String} {l : List String} (h : c ∈ l) :
    (l.all (fun c2 => c2 != c)) = false := by
  induction l with
  | nil => simp at h
  | cons x l ih =>
    rcases List.mem_cons.mp h with h1 | h1
    · simp [List.all_cons, h1]
    · simp [List.all_cons, ih h1]

theorem any_unknown_eq_false_refl (l : List String) :
    (l.any (fun c => l.all (fun c2 => c2 != c))) = false := by
  rw [List.any_eq_false]
  intro c hc
  rw [all_ne_eq_false_of_mem hc]
  simp

theorem orErr_eq_ok_iff {α : Type} {o : Option α} {e : PyError} {a : α} :
    orErr o e = .ok a ↔ o = some a := by
  cases o <;> simp [orErr]

theorem schemaColumns_eq (l : List Field) (toks : List String)
    (h : specColumnToks (l.filter (fun f => f.name != "table_name")) = .ok toks) :
    schemaColumns l = .ok (List.zipWith (fun f t => f.name ++ " " ++ t)
      (l.filter (fun f => f.name != "table_name")) toks) := by
  induction l generalizing toks with
  | nil =>
    simp only [List.filter_nil, specColumnToks, Except.ok.injEq] at h
    subst h
    rfl
  | cons f l ih =>
    by_cases hf : f.name = "table_name"
    · have hp : (f.name != "table_name") = false := by simp [hf]
      simp only [List.filter_cons, hp, if_false] at h ⊢
      unfold schemaColumns
      rw [if_pos hf]
      exact ih toks h
    · have hp : (f.name != "table_name") = true := by simp [hf]
      simp only [List.filter_cons, hp, if_true] at h ⊢
      unfold specColumnToks at h
      obtain ⟨t0, ht0, h2⟩ := bind_eq_ok_iff.mp h
      obtain ⟨rest, hrest, h3⟩ := bind_eq_ok_iff.mp h2
      simp only [Except.ok.injEq] at h3
      subst h3
      unfold schemaColumns
      rw [if_neg hf, ht0, ok_bind, ih rest hrest, ok_bind]
      rfl

theorem bind_ok_eq_map {ε α β : Type} (e : Except ε α) (g : α → β) :
    (e >>= fun a => Except.ok (g a)) = e.map g := by
  cases e <;> rfl

theorem execInsert_ok_effect (st : DbState) (tname : String) (cols : List String)
    (vals : List Val) (st' : DbState) (h : execInsert st tname cols vals = .ok st') :
    ∃ tbl row, dictGet st.storage tname = some tbl ∧
      st'.storage = dictSet st.storage tname ⟨tbl.cols, tbl.rows ++ [row]⟩ := by
  unfold execInsert at h
  cases hcon : st.connected with
  | false => rw [hcon] at h; simp at h
  | true =>
    rw [hcon] at h
    simp only [Bool.not_true, Bool.false_eq_true, if_false] at h
    cases hg : dictGet st.storage tname with
    | none => simp only [hg] at h; simp at h
    | some tbl =>
      simp only [hg] at h
      by_cases he : cols.isEmpty
      · rw [if_pos he] at h; simp at h
      · rw [if_neg he] at h
        by_cases ha : cols.any (fun c => tbl.cols.all (fun c2 => c2 != c)) = true
        · rw [if_pos ha] at h; simp at h
        · rw [if_neg ha] at h
          obtain ⟨svals, hm, hrest⟩ := bind_eq_ok_iff.mp h
          simp only [Except.ok.injEq] at hrest
          refine ⟨tbl, tbl.cols.map (fun c => (dictGet (cols.zip svals) c).getD .sNone),
            rfl, ?_⟩
          rw [← hrest]

theorem pure_eq_ok {ε α : Type} (a : α) : (pure a : Except ε α) = .ok a := rfl

theorem find?_eq_last (l : List Field) (tnf : Field)
    (hl : ∀ f ∈ l, (f.name == "table_name") = false)
    (ht : (tnf.name == "table_name") = true) :
    (l ++ [tnf]).find? (fun f => f.name == "table_name") = some tnf := by
  induction l with
  | nil =>
    simp only [List.nil_append]
    exact List.find?_cons_of_pos _ ht
  | cons f l ih =>
    rw [List.cons_append, List.find?_cons_of_neg _ (by simp [hl f (by simp)])]
    exact ih (fun g hg => hl g (by simp [hg]))

theorem zip_map_zip (cs : List String) (r : List Scalar) (f2 : String × Scalar → Scalar) :
    cs.zip ((cs.zip r).map f2) = (cs.zip r).map (fun p => (p.1, f2 p)) := by
  induction cs generalizing r with
  | nil => rfl
  | cons c cs ih =>
    cases r with
    | nil => rfl
    | cons x r =>
      simp only [List.zip_cons_cons, List.map_cons]
      rw [ih]

theorem dictGet_map_keyed {α β γ : Type} [DecidableEq α] (m : List (α × β)) (f : α × β → γ)
    (k : α) :
    dictGet (m.map (fun p => (p.1, f p))) k = (dictGet m k).map (fun v => f (k, v)) := by
  induction m with
  | nil => rfl
  | cons p m ih =>
    obtain ⟨a, b⟩ := p
    by_cases hp : a = k
    · subst hp
      simp [dictGet]
    · simp [dictGet, hp, ih]

theorem dictGet_eq_none_of_not_mem {α β : Type} [DecidableEq α] (m : List (α × β)) (k : α)
    (h : k ∉ m.map Prod.fst) : dictGet m k = none := by
  induction m with
  | nil => rfl
  | cons p m ih =>
    simp only [List.map_cons, List.mem_cons] at h
    push_neg at h
    show (if p.1 = k then some p.2 else dictGet m k) = none
    rw [if_neg (fun hh => h.1 hh.symm)]
    exact ih h.2

theorem mapExcept_pairs_fst (sets : List (String × Val)) (ssets : List (String × Scalar))
    (h : mapExcept (fun s => do
        let v ← toScalar s.2
        pure (s.1, v)) sets = .ok ssets) :
    ssets.map Prod.fst = sets.map Prod.fst := by
  induction sets generalizing ssets with
  | nil =>
    simp only [mapExcept, Except.ok.injEq] at h
    subst h
    rfl
  | cons s sets ih =>
    simp only [mapExcept] at h
    obtain ⟨b, hb, h2⟩ := bind_eq_ok_iff.mp h
    obtain ⟨bs, hbs, h3⟩ := bind_eq_ok_iff.mp h2
    simp only [Except.ok.injEq] at h3
    subst h3
    obtain ⟨v, hv, hb2⟩ := bind_eq_ok_iff.mp hb
    rw [pure_eq_ok] at hb2
    simp only [Except.ok.injEq] at hb2
    subst hb2
    simp [ih bs hbs]

theorem execUpdate_ok_frame (st : DbState) (tname : String) (sets : List (String × Val))
    (ident : String) (iv : Val) (st' : DbState)
    (h : execUpdate st tname sets ident iv = .ok st') :
    (∀ n, n ≠ tname → dictGet st'.storage n = dictGet st.storage n) ∧
    ∃ tbl g, dictGet st.storage tname = some tbl ∧
      st'.storage = dictSet st.storage tname ⟨tbl.cols, tbl.rows.map g⟩ ∧
      ∀ r c, c ∉ sets.map Prod.fst → rowGet tbl.cols (g r) c = rowGet tbl.cols r c := by
  unfold execUpdate at h
  cases hcon : st.connected with
  | false => rw [hcon] at h; simp at h
  | true =>
    rw [hcon] at h
    simp only [Bool.not_true, Bool.false_eq_true, if_false] at h
    cases hg : dictGet st.storage tname with
    | none => simp only [hg] at h; simp at h
    | some tbl =>
      simp only [hg] at h
      by_cases he : sets.isEmpty
      · rw [if_pos he] at h; simp at h
      · rw [if_neg he] at h
        by_cases ha : (sets.any fun s => tbl.cols.all fun c2 => c2 != s.1) = true
        · rw [if_pos ha] at h; simp at h
        · rw [if_neg ha] at h
          by_cases hi : (tbl.cols.all fun c2 => c2 != ident) = true
          · rw [if_pos hi] at h; simp at h
          · rw [if_neg hi] at h
            obtain ⟨ssets, hm, h2⟩ := bind_eq_ok_iff.mp h
            obtain ⟨iv0, hiv, h3⟩ := bind_eq_ok_iff.mp h2
            simp only [Except.ok.injEq] at h3
            subst h3
            constructor
            · intro n hn
              exact dictGet_dictSet_ne _ _ _ _ hn
            · refine ⟨tbl, _, rfl, rfl, ?_⟩
              intro r c hc
              cases hrg : rowGet tbl.cols r ident with
              | none => simp only [hrg]
              | some cell =>
                by_cases hs : sqlEq cell iv0 = true
                · simp only [hrg, hs, if_true]
                  unfold rowGet
                  rw [zip_map_zip, dictGet_map_keyed]
                  have hnone : dictGet ssets c = none := by
                    apply dictGet_eq_none_of_not_mem
                    rw [mapExcept_pairs_fst sets ssets hm]
                    exact hc
                  dsimp only
                  rw [hnone]
                  cases dictGet (tbl.cols.zip r) c <;> rfl
                · simp [hrg, hs]

theorem execInsert_full_row (st : DbState) (tn : String) (names : List String)
    (argsS : List Scalar) (rows0 : List (List Scalar))
    (hconn : st.connected = true)
    (hne : names ≠ [])
    (hnodup : names.Nodup)
    (hlen : names.length = argsS.length)
    (hstore : dictGet st.storage tn = some ⟨names, rows0⟩) :
    execInsert st tn names (argsS.map Val.scalar) =
      .ok { st with storage := dictSet st.storage tn ⟨names, rows0 ++ [argsS]⟩ } := by
  unfold execInsert
  rw [hconn]
  simp only [Bool.not_true, Bool.false_eq_true, if_false, hstore]
  rw [if_neg (fun hempty => hne (by simpa using hempty))]
  rw [if_neg (by rw [any_unknown_eq_false_refl]; simp)]
  rw [mapExcept_map_scalar, ok_bind, map_dictGet_zip names argsS hnodup hlen]

theorem execSelect_single (st : DbState) (tn : String) (names : List String)
    (argsS : List Scalar) (rows0 : List (List Scalar)) (pkcol : String) (pkv : Scalar)
    (hconn : st.connected = true)
    (hstore : dictGet st.storage tn = some ⟨names, rows0 ++ [argsS]⟩)
    (hmem : pkcol ∈ names)
    (hrow : dictGet (names.zip argsS) pkcol = some pkv)
    (hpkv : pkv ≠ Scalar.sNone)
    (hnomatch : ∀ r ∈ rows0, ∀ cell, rowGet names r pkcol = some cell →
      sqlEq cell pkv = false) :
    execSelect st tn pkcol (Val.scalar pkv) = .ok [argsS] := by
  unfold execSelect
  rw [hconn]
  simp only [Bool.not_true, Bool.false_eq_true, if_false, hstore]
  rw [if_neg (by rw [all_ne_eq_false_of_mem hmem]; simp)]
  simp only [toScalar, ok_bind]
  congr 1
  rw [List.filter_append]
  have h1 : rows0.filter (fun r =>
      match rowGet names r pkcol with
      | some cell => sqlEq cell pkv
      | none => false) = [] := by
    rw [List.filter_eq_nil_iff]
    intro r hr
    cases hrg : rowGet names r pkcol with
    | none => simp [hrg]
    | some cell => simp [hrg, hnomatch r hr cell hrg]
  have h2 : [argsS].filter (fun r =>
      match rowGet names r pkcol with
      | some cell => sqlEq cell pkv
      | none => false) = [argsS] := by
    have hget : rowGet names argsS pkcol = some pkv := hrow
    have hsq : sqlEq pkv pkv = true := by
      simp [sqlEq, bne_iff_ne, hpkv]
    simp [List.filter, hget, hsq]
  rw [h1, h2, List.nil_append]

/-! ### Claim theorems -/

/-- C3 (amended): for every invocation of a bound update, exactly the
keyword arguments become `SET column = ?` clauses, joined by `", "` in
keyword order (so the identifying column is among the updated columns
exactly when passed as a keyword, and positionally-passed or defaulted
fields never are), and a successful execution changes no column outside the
keyword list in any stored row and no table other than the target. -/
theorem C3_update_set_from_kwargs_amended (st : DbState) (dcls rt : RecordType)
    (colId : Option String) (args : List Val) (kwargs : List (String × Val))
    (tnA uname : Val) (inst : Inst) (ident : String)
    (h1 : classAttrTableName dcls = some tnA)
    (h2 : dictGet st.tables tnA = some rt)
    (h3 : construct rt args kwargs = .ok inst)
    (h4 : dictGet inst "username" = some uname)
    (h5 : colId.or rt.primary_key = some ident) :
    Db.update st dcls colId args kwargs =
      (execUpdate st tnA.pyStr kwargs ident uname).map
        (fun st' =>
          (⟨"UPDATE " ++ tnA.pyStr ++ " SET " ++
              String.intercalate ", " (kwargs.map (fun kv => kv.1 ++ " = ?")) ++
              " WHERE " ++ ident ++ " = ?",
            kwargs.map (fun kv => kv.2) ++ [uname]⟩, st')) ∧
    (∀ st', execUpdate st tnA.pyStr kwargs ident uname = .ok st' →
      (∀ n, n ≠ tnA.pyStr → dictGet st'.storage n = dictGet st.storage n) ∧
      ∃ tbl g, dictGet st.storage tnA.pyStr = some tbl ∧
        st'.storage = dictSet st.storage tnA.pyStr ⟨tbl.cols, tbl.rows.map g⟩ ∧
        ∀ r c, c ∉ kwargs.map Prod.fst →
          rowGet tbl.cols (g r) c = rowGet tbl.cols r c) := by
  constructor
  · simp only [Db.update, h1, h2, h3, h4, h5, orErr_some, ok_bind]
    rw [bind_ok_eq_map]
  · intro st' hE
    exact execUpdate_ok_frame _ _ _ _ _ _ hE

/-- C3 witness: `C3_update_set_from_kwargs_amended` at
`update(nickname="z")` on the `users` record type. -/
theorem C3_update_set_from_kwargs_amended_witness :
    Db.update usersSt usersRt none [] [("nickname", vStr "z")] =
      (execUpdate usersSt "users" [("nickname", vStr "z")] "username" vNone).map
        (fun st' =>
          (⟨"UPDATE users SET nickname = ? WHERE username = ?",
            [vStr "z", vNone]⟩, st')) := by
  exact (C3_update_set_from_kwargs_amended usersSt usersRt usersRt none []
    [("nickname", vStr "z")] (vStr "users") vNone
    [("username", vNone), ("nickname", vStr "z"), ("table_name", vStr "users")] "username"
    (by decide) (by decide) (by decide) (by decide) (by decide)).1

/-- C5 (amended): the bound insert constructs the record instance from the
call arguments (positional then keyword, following field order and
defaults — the instance's entries are in field-declaration order), and the
statement `INSERT INTO <table> (<cols>) VALUES (<placeholders>);` contains,
in declaration order, exactly the fields whose value is neither `None` nor
equal to the *instance's* `table_name` value, with those values bound as
parameters; a successful execution commits exactly one appended row. -/
theorem C5_insert_statement_amended (st : DbState) (dcls rt : RecordType) (args : List Val)
    (kwargs : List (String × Val)) (tnA tnInst : Val) (inst : Inst)
    (h1 : classAttrTableName dcls = some tnA)
    (h2 : dictGet st.tables tnA = some rt)
    (h3 : construct rt args kwargs = .ok inst)
    (h4 : dictGet inst "table_name" = some tnInst) :
    inst.map Prod.fst = rt.fields.map (fun f => f.name) ∧
    Db.insert st dcls args kwargs =
      (execInsert st tnA.pyStr
          ((inst.filter (fun nv => nv.2 != vNone && nv.2 != tnInst)).map Prod.fst)
          ((inst.filter (fun nv => nv.2 != vNone && nv.2 != tnInst)).map Prod.snd)).map
        (fun st' =>
          (⟨"INSERT INTO " ++ tnA.pyStr ++ " (" ++
              String.intercalate ", "
                ((inst.filter (fun nv => nv.2 != vNone && nv.2 != tnInst)).map Prod.fst) ++
              ") VALUES (" ++
              String.intercalate ", "
                (((inst.filter (fun nv => nv.2 != vNone && nv.2 != tnInst)).map
                  Prod.snd).map (fun _ => "?")) ++ ");",
            (inst.filter (fun nv => nv.2 != vNone && nv.2 != tnInst)).map Prod.snd⟩,
            st')) ∧
    (∀ st', execInsert st tnA.pyStr
        ((inst.filter (fun nv => nv.2 != vNone && nv.2 != tnInst)).map Prod.fst)
        ((inst.filter (fun nv => nv.2 != vNone && nv.2 != tnInst)).map Prod.snd) =
        .ok st' →
      ∃ tbl row, dictGet st.storage tnA.pyStr = some tbl ∧
        st'.storage = dictSet st.storage tnA.pyStr ⟨tbl.cols, tbl.rows ++ [row]⟩) := by
  refine ⟨construct_ok_names h3, ?_, ?_⟩
  · simp only [Db.insert, h1, h2, h3, h4, orErr_some, ok_bind]
    rw [bind_ok_eq_map]
  · intro st' hE
    exact execInsert_ok_effect _ _ _ _ _ hE

/-- C5 witness: `C5_insert_statement_amended` at `insert("alice")` on the
`users` record type. -/
theorem C5_insert_statement_amended_witness :
    [("username", vStr "alice"), ("nickname", vNone), ("table_name", vStr "users")].map
        Prod.fst = usersRt.fields.map (fun f => f.name) ∧
    Db.insert usersSt usersRt [vStr "alice"] [] =
      (execInsert usersSt "users" ["username"] [vStr "alice"]).map
        (fun st' =>
          (⟨"INSERT INTO users (username) VALUES (?);", [vStr "alice"]⟩, st')) := by
  have happ := C5_insert_statement_amended usersSt usersRt usersRt [vStr "alice"] []
    (vStr "users") (vStr "users")
    [("username", vStr "alice"), ("nickname", vNone), ("table_name", vStr "users")]
    (by decide) (by decide) (by decide) (by decide)
  exact ⟨happ.1, happ.2.1⟩

/-- C8: for every record type whose field types all map, `make_schema`
produces exactly `CREATE TABLE IF NOT EXISTS <name> (\n<columns>\n);` with
spaces in the name replaced by underscores, the non-`table_name` fields in
declaration order rendered as `"<fieldName> <SqlTypeToken>"` joined by
`", "`, a `PRIMARY KEY (<column>)` clause exactly when a primary key is
declared, a `UNIQUE (<column>)` clause exactly when a unique key is
declared, and foreign-key annotations never rendered. -/
theorem C8_make_schema_shape (name : String) (rt : RecordType) (toks : List String)
    (h : specColumnToks (rt.fields.filter (fun f => f.name != "table_name")) = .ok toks) :
    make_schema name rt = .ok ⟨replaceSpaces name, specSchemaDdl name rt toks⟩ ∧
    (∀ fks, make_schema name ⟨rt.fields, rt.primary_key, rt.unique_key, fks⟩ =
      make_schema name rt) := by
  constructor
  · unfold make_schema specSchemaDdl
    rw [schemaColumns_eq rt.fields toks h]
    rfl
  · intro fks
    rfl

theorem regFields_error (rt : RecordType) (d : Val) (msg : String)
    (herr : make_schema d.pyStr rt = .error msg) :
    ∀ (l : List Field) (st : DbState), (∃ f ∈ l, f.name = "table_name") →
    (∀ f ∈ l, f.name = "table_name" → f.default = some d) →
    regFields rt st l = (st, some (.valueError msg)) := by
  intro l
  induction l with
  | nil =>
    rintro st ⟨f, hf, -⟩ -
    simp at hf
  | cons f l ih =>
    intro st hex hall
    by_cases hf : f.name = "table_name"
    · have hd := hall f (by simp) hf
      unfold regFields regFieldStep
      rw [if_pos (by simp [hf]), hd]
      simp [herr]
    · unfold regFields regFieldStep
      rw [if_neg (by simp [hf])]
      apply ih st
      · obtain ⟨f', hf', hn'⟩ := hex
        rcases List.mem_cons.mp hf' with h1 | h1
        · exact absurd (h1 ▸ hn') hf
        · exact ⟨f', h1, hn'⟩
      · exact fun g hg => hall g (List.mem_cons_of_mem _ hg)

/-- C9 (amended): registering a record type whose schema derivation fails
with the unsupported-type error propagates the error to the caller and
leaves storage and the DDL log untouched — but the registry entry has
already been stored, so the registry is mutated by the failed
registration. -/
theorem C9_registration_abort_amended (st : DbState) (rt : RecordType) (d : Val) (msg : String)
    (h1 : classAttrTableName rt = some d)
    (h2 : ∀ f ∈ rt.fields, f.name = "table_name" → f.default = some d)
    (h3 : make_schema d.pyStr rt = .error msg) :
    read_table_schemas st (.single rt) =
      ({ st with tables := dictSet st.tables d rt }, some (.valueError msg)) := by
  obtain ⟨f0, hf0, hf0d⟩ : ∃ f0, rt.fields.find? (fun f => f.name == "table_name") = some f0 ∧
      f0.default = some d := by
    unfold classAttrTableName at h1
    cases hfind : rt.fields.find? (fun f => f.name == "table_name") with
    | none => rw [hfind] at h1; simp at h1
    | some f0 => rw [hfind] at h1; exact ⟨f0, rfl, by simpa using h1⟩
  have hmem : ∃ f ∈ rt.fields, f.name = "table_name" := by
    refine ⟨f0, List.mem_of_find?_eq_some hf0, ?_⟩
    have := List.find?_some hf0
    simpa using this
  simp only [read_table_schemas, h1]
  exact regFields_error rt d msg h3 rt.fields _ hmem h2

/-- C9 witness: `C9_registration_abort_amended` at `badRt` (a `complex`
field) from the empty facade state. -/
theorem C9_registration_abort_amended_witness :
    read_table_schemas emptySt (.single badRt) =
      ({ emptySt with tables := dictSet emptySt.tables (vStr "bad") badRt },
        some (.valueError "Unsupported data type")) := by
  exact C9_registration_abort_amended emptySt badRt (vStr "bad") "Unsupported data type"
    (by decide) (by decide) (by decide)

/-- C8 witness: `C8_make_schema_shape` at the `users` record type. -/
theorem C8_make_schema_shape_witness :
    specColumnToks (usersRt.fields.filter (fun f => f.name != "table_name")) =
      .ok ["VARCHAR", "VARCHAR"] ∧
    make_schema "users" usersRt =
      .ok ⟨replaceSpaces "users", specSchemaDdl "users" usersRt ["VARCHAR", "VARCHAR"]⟩ := by
  have h : specColumnToks (usersRt.fields.filter (fun f => f.name != "table_name")) =
      .ok ["VARCHAR", "VARCHAR"] := by decide
  exact ⟨h, (C8_make_schema_shape "users" usersRt ["VARCHAR", "VARCHAR"] h).1⟩

/-- C2 (failing input): invoking the bound update `update(5, username="bob")`
on `idUserRt` (primary key `id`, fields `id, username, table_name`) issues
`UPDATE t SET username = ? WHERE id = ?` with parameters `("bob", "bob")`:
the final parameter matched to `WHERE id = ?` is the constructed instance's
hardcoded `username` attribute (`"bob"`), not the first positional argument
`5` as the claim states. -/
theorem C2_update_binds_username_attribute :
    (Db.update idUserSt idUserRt none [vInt 5] [("username", vStr "bob")]).map
      (fun p => p.1) =
      .ok ⟨"UPDATE t SET username = ? WHERE id = ?", [vStr "bob", vStr "bob"]⟩ ∧
    vStr "bob" ≠ vInt 5 := by
  exact ⟨by decide, by decide⟩

/-- C4 (failing input): `read_table_schemas` evaluates
`self.tables[schema.table_name]` first, and a tuple has no `table_name`
attribute, so registering any tuple of record types raises `AttributeError`
with no state change — registering a tuple never succeeds, contradicting the
claim (and the repository's own test for tuple registration). -/
theorem C4_tuple_registration_raises :
    ∀ (st : DbState) (rts : List RecordType),
      read_table_schemas st (.tup rts) = (st, some .attributeError) :=
  fun _ _ => rfl

/-- C7: the type mapper (`py_to_sql_type`, `aiodesa/utils/util_types.py`) is
total on the fixed primitive set with the stated tokens (int→INT,
str→VARCHAR, float→FLOAT, bool→BOOLEAN, bytes/list/tuple/set/dict→TEXT,
None→NULL); a two-armed union with a null arm maps exactly as its non-null
(non-union: Python flattens unions) arm; `complex` and a union of two
non-null arms raise the unsupported-type error. -/
theorem C7_py_to_sql_type_totality :
    py_to_sql_type .pInt = .ok "INT" ∧
    py_to_sql_type .pStr = .ok "VARCHAR" ∧
    py_to_sql_type .pFloat = .ok "FLOAT" ∧
    py_to_sql_type .pBool = .ok "BOOLEAN" ∧
    py_to_sql_type .pBytes = .ok "TEXT" ∧
    py_to_sql_type .pList = .ok "TEXT" ∧
    py_to_sql_type .pTuple = .ok "TEXT" ∧
    py_to_sql_type .pSet = .ok "TEXT" ∧
    py_to_sql_type .pDict = .ok "TEXT" ∧
    py_to_sql_type .pNone = .ok "NULL" ∧
    (∀ t : PyType, t.atomic = true →
      py_to_sql_type (.pUnion t .pNone) = py_to_sql_type t ∧
      py_to_sql_type (.pUnion .pNone t) = py_to_sql_type t) ∧
    py_to_sql_type .pComplex = .error "Unsupported data type" ∧
    (∀ a b : PyType, a ≠ .pNone → b ≠ .pNone →
      py_to_sql_type (.pUnion a b) = .error "Unsupported data type") := by
  refine ⟨rfl, rfl, rfl, rfl, rfl, rfl, rfl, rfl, rfl, rfl, ?_, rfl, ?_⟩
  · intro t ht
    cases t <;> first
      | exact ⟨by decide, by decide⟩
      | simp [PyType.atomic] at ht
  · intro a b ha hb
    simp [py_to_sql_type, if_neg ha, if_neg hb]

/-- C7 witness: the hypothesis-bearing clauses of
`C7_py_to_sql_type_totality` instantiated at `int | None` and at the
non-optional union `float | str`. -/
theorem C7_py_to_sql_type_totality_witness :
    py_to_sql_type (.pUnion .pInt .pNone) = py_to_sql_type .pInt ∧
    py_to_sql_type (.pUnion .pFloat .pStr) = .error "Unsupported data type" := by
  obtain ⟨-, -, -, -, -, -, -, -, -, -, hu, -, herr⟩ := C7_py_to_sql_type_totality
  exact ⟨(hu .pInt rfl).1, herr .pFloat .pStr (by decide) (by decide)⟩

/-- C1 (amended): for a record type whose `table_name` field is declared
last with the table-name literal as its default, whose field names are
unique, whose fields beyond the first carry defaults, and whose declared
primary key is one of the data columns, inserting a record with no absent
fields and no field value equal to the table-name literal into a table
holding no row that matches the record's primary-key value, and then
invoking find with that primary-key value, returns a record equal in every
field to the inserted one. -/
theorem C1_roundtrip_amended
    (st : DbState) (rt : RecordType) (f0 : Field) (dfs : List Field) (tnf : Field)
    (tn : String) (argsS : List Scalar) (pkcol : String) (pkv : Scalar)
    (rows0 : List (List Scalar))
    (hf : rt.fields = f0 :: (dfs ++ [tnf]))
    (htn : tnf.name = "table_name")
    (htnd : tnf.default = some (vStr tn))
    (hnodup : (rt.fields.map (fun f => f.name)).Nodup)
    (hdef : ∀ f ∈ dfs, (f.default).isSome)
    (hpk : rt.primary_key = some pkcol)
    (hlen : argsS.length = dfs.length + 1)
    (hvals : ∀ s ∈ argsS, s ≠ Scalar.sNone ∧ s ≠ Scalar.sStr tn)
    (hreg : dictGet st.tables (vStr tn) = some rt)
    (hconn : st.connected = true)
    (hstore : dictGet st.storage tn = some ⟨(f0 :: dfs).map (fun f => f.name), rows0⟩)
    (hpkv : dictGet (((f0 :: dfs).map (fun f => f.name)).zip argsS) pkcol = some pkv)
    (hnomatch : ∀ r ∈ rows0, ∀ cell,
      rowGet ((f0 :: dfs).map (fun f => f.name)) r pkcol = some cell →
      sqlEq cell pkv = false) :
    construct rt (argsS.map Val.scalar) [] =
      .ok (((f0 :: dfs).map (fun f => f.name)).zip (argsS.map Val.scalar) ++
        [("table_name", vStr tn)]) ∧
    ∃ stmt stmt2,
      Db.insert st rt (argsS.map Val.scalar) [] =
        .ok (stmt, { st with storage := (dictSet st.storage tn
          ⟨(f0 :: dfs).map (fun f => f.name), rows0 ++ [argsS]⟩) }) ∧
      Db.find { st with storage := (dictSet st.storage tn
          ⟨(f0 :: dfs).map (fun f => f.name), rows0 ++ [argsS]⟩) } rt none
          [Val.scalar pkv] [] =
        .ok (stmt2,
          ((f0 :: dfs).map (fun f => f.name)).zip (argsS.map Val.scalar) ++
          [("table_name", vStr tn)]) := by
  rw [hf] at hnodup
  simp only [List.map_cons, List.map_append, List.nodup_cons, List.map_nil] at hnodup
  obtain ⟨hf0nm, hnodup2⟩ := hnodup
  obtain ⟨hdfsnd, hsingle, hdisj⟩ := List.nodup_append.mp hnodup2
  have hf0tn : f0.name ≠ "table_name" := by
    intro h
    exact hf0nm (by simp [h, htn])
  have hdfstn : ∀ f ∈ dfs, f.name ≠ "table_name" := by
    intro f hfm h
    exact hdisj (a := f.name) (List.mem_map_of_mem _ hfm) (by simp [h, htn])
  have hf0dfs : f0.name ∉ dfs.map (fun f => f.name) := by
    intro h
    exact hf0nm (by simp [h])
  have hnames_nodup : ((f0 :: dfs).map (fun f => f.name)).Nodup := by
    simp only [List.map_cons, List.nodup_cons]
    exact ⟨hf0dfs, hdfsnd⟩
  have hlen2 : ((f0 :: dfs).map (fun f => f.name)).length = argsS.length := by
    simp [hlen]
  have hall : ∀ f ∈ f0 :: dfs, (f.name == "table_name") = false := by
    intro f hfm
    rcases List.mem_cons.mp hfm with h1 | h1
    · simp [h1, hf0tn]
    · simp [hdfstn f h1]
  have hca : classAttrTableName rt = some (vStr tn) := by
    unfold classAttrTableName
    rw [hf, ← List.cons_append, find?_eq_last (f0 :: dfs) tnf hall (by simp [htn])]
    simp [htnd]
  have hcons : construct rt (argsS.map Val.scalar) [] =
      .ok (((f0 :: dfs).map (fun f => f.name)).zip (argsS.map Val.scalar) ++
        [("table_name", vStr tn)]) := by
    have := construct_positional rt (f0 :: dfs) tnf (vStr tn)
      (by rw [hf, List.cons_append]) htnd (argsS.map Val.scalar) (by simp [hlen])
    rw [htn] at this
    exact this
  have hkeys : ∀ p ∈ ((f0 :: dfs).map (fun f => f.name)).zip (argsS.map Val.scalar),
      p.1 ≠ "table_name" := by
    rintro ⟨a, b⟩ hab
    have ha := (List.of_mem_zip hab).1
    simp only [List.map_cons, List.mem_cons] at ha
    rcases ha with h1 | h1
    · simpa [h1] using hf0tn
    · obtain ⟨f, hfm, rfl⟩ := List.mem_map.mp h1
      exact hdfstn f hfm
  have htnget : dictGet (((f0 :: dfs).map (fun f => f.name)).zip (argsS.map Val.scalar) ++
      [("table_name", vStr tn)]) "table_name" = some (vStr tn) := by
    rw [dictGet_append_left_none _ _ _ hkeys]
    simp [dictGet]
  have hfilter : (((f0 :: dfs).map (fun f => f.name)).zip (argsS.map Val.scalar) ++
      [("table_name", vStr tn)]).filter
        (fun nv => nv.2 != vNone && nv.2 != vStr tn) =
      ((f0 :: dfs).map (fun f => f.name)).zip (argsS.map Val.scalar) := by
    rw [List.filter_append]
    have hleft : (((f0 :: dfs).map (fun f => f.name)).zip (argsS.map Val.scalar)).filter
        (fun nv => nv.2 != vNone && nv.2 != vStr tn) =
        ((f0 :: dfs).map (fun f => f.name)).zip (argsS.map Val.scalar) := by
      rw [List.filter_eq_self]
      rintro ⟨a, b⟩ hab
      have hb := (List.of_mem_zip hab).2
      obtain ⟨s, hs, rfl⟩ := List.mem_map.mp hb
      have hv := hvals s hs
      simp [vNone, vStr, bne_iff_ne, hv.1, hv.2]
    have hright : ([(("table_name" : String), vStr tn)]).filter
        (fun nv => nv.2 != vNone && nv.2 != vStr tn) = [] := by
      simp [List.filter]
    rw [hleft, hright, List.append_nil]
  have hfst : (((f0 :: dfs).map (fun f => f.name)).zip (argsS.map Val.scalar)).map
      Prod.fst = (f0 :: dfs).map (fun f => f.name) :=
    List.map_fst_zip _ _ (by simp [hlen])
  have hsnd : (((f0 :: dfs).map (fun f => f.name)).zip (argsS.map Val.scalar)).map
      Prod.snd = argsS.map Val.scalar :=
    List.map_snd_zip _ _ (by simp [hlen])
  have hexec : execInsert st tn ((f0 :: dfs).map (fun f => f.name))
      (argsS.map Val.scalar) =
      .ok { st with storage := (dictSet st.storage tn
        ⟨(f0 :: dfs).map (fun f => f.name), rows0 ++ [argsS]⟩) } :=
    execInsert_full_row st tn _ argsS rows0 hconn (by simp) hnames_nodup hlen2 hstore
  have hpystr : (vStr tn).pyStr = tn := rfl
  have hpkmem : pkcol ∈ (f0 :: dfs).map (fun f => f.name) :=
    (List.of_mem_zip (dictGet_eq_some_mem hpkv)).1
  have hpkvS : pkv ∈ argsS := (List.of_mem_zip (dictGet_eq_some_mem hpkv)).2
  have hsel : execSelect { st with storage := (dictSet st.storage tn
      ⟨(f0 :: dfs).map (fun f => f.name), rows0 ++ [argsS]⟩) } tn pkcol
      (Val.scalar pkv) = .ok [argsS] :=
    execSelect_single
      { st with storage := (dictSet st.storage tn
        ⟨(f0 :: dfs).map (fun f => f.name), rows0 ++ [argsS]⟩) }
      tn ((f0 :: dfs).map (fun f => f.name)) argsS rows0 pkcol pkv
      hconn (dictGet_dictSet_self _ _ _) hpkmem hpkv (hvals pkv hpkvS).1 hnomatch
  have hprobe : construct rt [Val.scalar pkv] [] =
      .ok ((f0.name, Val.scalar pkv) ::
        (dfs.map (fun f => (f.name, (f.default).getD vNone)) ++
          [("table_name", vStr tn)])) := by
    have := construct_single_arg rt f0 dfs tnf (vStr tn) hf htnd hdef (Val.scalar pkv)
    rw [htn] at this
    exact this
  have hprobetn : dictGet ((f0.name, Val.scalar pkv) ::
      (dfs.map (fun f => (f.name, (f.default).getD vNone)) ++
        [("table_name", vStr tn)])) "table_name" = some (vStr tn) := by
    rw [← List.cons_append, dictGet_append_left_none]
    · simp [dictGet]
    · rintro ⟨a, b⟩ hab
      rcases List.mem_cons.mp hab with h1 | h1
      · have : a = f0.name := congrArg Prod.fst h1
        simpa [this] using hf0tn
      · obtain ⟨f, hfm, hfe⟩ := List.mem_map.mp h1
        have : a = f.name := (congrArg Prod.fst hfe).symm
        simpa [this] using hdfstn f hfm
  have hident : (Option.or none rt.primary_key) = some pkcol := by
    simp [Option.or, hpk]
  refine ⟨hcons,
    ⟨"INSERT INTO " ++ tn ++ " (" ++
        String.intercalate ", " ((f0 :: dfs).map (fun f => f.name)) ++
        ") VALUES (" ++
        String.intercalate ", " ((argsS.map Val.scalar).map (fun _ => "?")) ++ ");",
      argsS.map Val.scalar⟩,
    ⟨"SELECT * FROM " ++ tn ++ " WHERE " ++ pkcol ++ " = ?", [Val.scalar pkv]⟩,
    ?_, ?_⟩
  · simp only [Db.insert, hca, orErr_some, ok_bind, hreg, hcons, htnget, hfilter,
      hfst, hsnd, hpystr, hexec]
  · simp only [Db.find, hca, orErr_some, ok_bind, hreg, hprobe, hident, hprobetn,
      List.head?_cons, hpystr, hsel, List.drop_succ_cons, List.drop_nil,
      List.map_nil, List.append_nil, hcons]

/-- C1 witness: `C1_roundtrip_amended` at `insert("alice", "bob")` then
`find("alice")` on the `users` record type, starting from an empty table. -/
theorem C1_roundtrip_amended_witness :
    construct usersRt [vStr "alice", vStr "bob"] [] =
      .ok [("username", vStr "alice"), ("nickname", vStr "bob"),
           ("table_name", vStr "users")] ∧
    ∃ stmt stmt2,
      Db.insert usersSt usersRt [vStr "alice", vStr "bob"] [] =
        .ok (stmt, { usersSt with storage := (dictSet usersSt.storage "users"
          ⟨["username", "nickname"], [[Scalar.sStr "alice", Scalar.sStr "bob"]]⟩) }) ∧
      Db.find { usersSt with storage := (dictSet usersSt.storage "users"
          ⟨["username", "nickname"], [[Scalar.sStr "alice", Scalar.sStr "bob"]]⟩) }
          usersRt none [vStr "alice"] [] =
        .ok (stmt2, [("username", vStr "alice"), ("nickname", vStr "bob"),
          ("table_name", vStr "users")]) := by
  exact C1_roundtrip_amended usersSt usersRt
    ⟨"username", .pUnion .pStr .pNone, some vNone⟩
    [⟨"nickname", .pUnion .pStr .pNone, some vNone⟩]
    ⟨"table_name", .pStr, some (vStr "users")⟩
    "users" [Scalar.sStr "alice", Scalar.sStr "bob"] "username" (Scalar.sStr "alice") []
    (by decide) (by decide) (by decide) (by decide) (by decide) (by decide) (by decide)
    (by decide) (by decide) (by decide) (by decide) (by decide)
    (by intro r hr; simp at hr)

/-- C6 (amended): for every invocation of a bound find, `SELECT * FROM
<table> WHERE <identifyingColumn> = ?` is issued with exactly the single
identifier value `args[0]` bound; when the select yields zero rows, the
operation raises the index-range failure (`IndexError`, not a dedicated
not-found signal); when it yields exactly one row, the result is the record
instance reconstructed positionally from that row's column tuple. -/
theorem C6_find_first_row_amended (st : DbState) (dcls rt : RecordType)
    (colId : Option String) (args : List Val) (kwargs : List (String × Val))
    (tnA tnInst : Val) (inst : Inst) (ident : String) (a0 : Val)
    (results : List (List Scalar))
    (h1 : classAttrTableName dcls = some tnA)
    (h2 : dictGet st.tables tnA = some rt)
    (h3 : construct rt args kwargs = .ok inst)
    (h4 : colId.or rt.primary_key = some ident)
    (h5 : dictGet inst "table_name" = some tnInst)
    (h6 : args.head? = some a0)
    (h7 : execSelect st tnInst.pyStr ident a0 = .ok results) :
    (results = [] → Db.find st dcls colId args kwargs = .error .indexError) ∧
    (∀ row, results = [row] →
      Db.find st dcls colId args kwargs =
        (construct dcls (row.map Val.scalar) []).map
          (fun res =>
            (⟨"SELECT * FROM " ++ tnInst.pyStr ++ " WHERE " ++ ident ++ " = ?", [a0]⟩,
              res))) := by
  constructor
  · intro hres
    subst hres
    simp only [Db.find, h1, h2, h3, h4, h5, h6, h7, orErr_some, ok_bind, List.head?_nil,
      orErr_none, error_bind]
  · intro row hres
    subst hres
    simp only [Db.find, h1, h2, h3, h4, h5, h6, h7, orErr_some, ok_bind, List.head?_cons,
      List.drop_succ_cons, List.drop_nil, List.map_nil, List.append_nil]
    cases construct dcls (row.map Val.scalar) [] <;> rfl

/-- C6 witness: `C6_find_first_row_amended` on `abSt` by column `b`: zero
matching rows for `"zz"` (IndexError), and the single matching row for
`"1"` reconstructed positionally. -/
theorem C6_find_first_row_amended_witness :
    Db.find abSt abRt (some "b") [vStr "zz"] [] = .error .indexError ∧
    Db.find abSt abRt (some "b") [vStr "1"] [] =
      (construct abRt ([Scalar.sStr "x", Scalar.sStr "1"].map Val.scalar) []).map
        (fun res =>
          (⟨"SELECT * FROM t2 WHERE b = ?", [vStr "1"]⟩, res)) := by
  constructor
  · exact (C6_find_first_row_amended abSt abRt abRt (some "b") [vStr "zz"] []
      (vStr "t2") (vStr "t2")
      [("a", vStr "zz"), ("b", vNone), ("table_name", vStr "t2")] "b" (vStr "zz") []
      (by decide) (by decide) (by decide) (by decide) (by decide) (by decide)
      (by decide)).1 rfl
  · exact (C6_find_first_row_amended abSt abRt abRt (some "b") [vStr "1"] []
      (vStr "t2") (vStr "t2")
      [("a", vStr "1"), ("b", vNone), ("table_name", vStr "t2")] "b" (vStr "1")
      [[Scalar.sStr "x", Scalar.sStr "1"]]
      (by decide) (by decide) (by decide) (by decide) (by decide) (by decide)
      (by decide)).2 [Scalar.sStr "x", Scalar.sStr "1"] rfl

/-- C1 counterexample: on the `users` record type (primary key `username`),
inserting the record `("alice", "users")` — which has no absent fields —
silently drops `nickname` (its value equals the table-name string and the
filter `value != data_cls.table_name` removes it), so the round trip
`insert; find("alice")` returns a record whose `nickname` is `None`, not the
inserted `"users"`. -/
theorem C1_roundtrip_counterexample :
    construct usersRt [vStr "alice", vStr "users"] [] =
      .ok [("username", vStr "alice"), ("nickname", vStr "users"),
           ("table_name", vStr "users")] ∧
    ((Db.insert usersSt usersRt [vStr "alice", vStr "users"] []).bind
      (fun p => Db.find p.2 usersRt none [vStr "alice"] [])).map
        (fun q => dictGet q.2 "nickname") = .ok (some vNone) ∧
    (vNone : Val) ≠ vStr "users" := by
  refine ⟨by decide, by decide, by decide⟩

/-- C3 counterexample: invoking the bound update with the identifying column
passed as a keyword (`update(username="johnny")` on `usersRt`, whose primary
key is `username`) puts `username = ?` into the SET list — the identifying
column is among the updated columns, contradicting the claim. -/
theorem C3_identifier_in_set_counterexample :
    (Db.update usersSt usersRt none [] [("username", vStr "johnny")]).map
      (fun p => p.1) =
      .ok ⟨"UPDATE users SET username = ? WHERE username = ?",
           [vStr "johnny", vStr "johnny"]⟩ := by
  decide

/-- C5 counterexample: `insert("x", "y", table_name="x")` on `usersRt`
issues `INSERT INTO users (nickname) VALUES (?)` — the field `username`,
whose value `"x"` is neither absent nor equal to the literal table-name
default `"users"`, is missing from the statement, because the source filters
against the constructed instance's `table_name` value (`"x"`), not the
literal default. -/
theorem C5_insert_filter_counterexample :
    (Db.insert usersSt usersRt [vStr "x", vStr "y"] [("table_name", vStr "x")]).map
      (fun p => p.1) =
      .ok ⟨"INSERT INTO users (nickname) VALUES (?);", [vStr "y"]⟩ := by
  decide

/-- C6 counterexample: a find over a non-unique column with two matching
rows (`find("x")` by column `a` on `abRt`, rows `("x","1")` and `("x","2")`)
returns a record whose `table_name` field is the *second result row as a
tuple* — not the record reconstructed positionally from the first result row
(whose `table_name` would be the default `"t2"`) — because the source passes
`*results[1:]` as extra constructor arguments. -/
theorem C6_find_multirow_counterexample :
    (Db.find abSt abRt (some "a") [vStr "x"] []).map
      (fun p => dictGet p.2 "table_name") =
      .ok (some (Val.vTuple [.sStr "x", .sStr "2"])) ∧
    (construct abRt ([Scalar.sStr "x", Scalar.sStr "1"].map Val.scalar) []).map
      (fun q => dictGet q "table_name") = .ok (some (vStr "t2")) := by
  exact ⟨by decide, by decide⟩

/-- C9 counterexample: registering `badRt` (a field of type `complex`)
propagates the unsupported-type error and leaves storage untouched, but the
registry already holds the entry for the failed record type — the
registration is not atomic on the registry, contradicting the claim. -/
theorem C9_registry_mutated_counterexample :
    (read_table_schemas emptySt (.single badRt)).2 =
      some (.valueError "Unsupported data type") ∧
    (read_table_schemas emptySt (.single badRt)).1.tables = [(vStr "bad", badRt)] ∧
    emptySt.tables = [] ∧
    (read_table_schemas emptySt (.single badRt)).1.storage = emptySt.storage := by
  refine ⟨by decide, by decide, by decide, by decide⟩

/-- C10 (amended): for the bound find and delete operations, the executed
SQL text and bound parameters depend only on the captured identifying
column, the first positional argument, and the constructed instance's
`table_name` value: two invocations that construct successfully and agree
on the first positional argument and on the instance's `table_name` issue
identical statements with identical parameters (and, for delete, produce
identical successor states); all other arguments are ignored by the
query. -/
theorem C10_find_delete_query_determined :
    (∀ (st : DbState) (dcls rt : RecordType) (colId : Option String)
      (args1 args2 : List Val) (kwargs1 kwargs2 : List (String × Val))
      (tnA : Val) (i1 i2 : Inst) (s1 s2 : Statement) (r1 r2 : Inst),
      classAttrTableName dcls = some tnA →
      dictGet st.tables tnA = some rt →
      construct rt args1 kwargs1 = .ok i1 →
      construct rt args2 kwargs2 = .ok i2 →
      dictGet i1 "table_name" = dictGet i2 "table_name" →
      args1.head? = args2.head? →
      Db.find st dcls colId args1 kwargs1 = .ok (s1, r1) →
      Db.find st dcls colId args2 kwargs2 = .ok (s2, r2) →
      s1 = s2 ∧ r1 = r2) ∧
    (∀ (st : DbState) (dcls rt : RecordType) (colId : Option String)
      (args1 args2 : List Val) (kwargs1 kwargs2 : List (String × Val))
      (tnA : Val) (i1 i2 : Inst) (s1 s2 : Statement) (st1 st2 : DbState),
      classAttrTableName dcls = some tnA →
      dictGet st.tables tnA = some rt →
      construct rt args1 kwargs1 = .ok i1 →
      construct rt args2 kwargs2 = .ok i2 →
      dictGet i1 "table_name" = dictGet i2 "table_name" →
      args1.head? = args2.head? →
      Db.delete st dcls colId args1 kwargs1 = .ok (s1, st1) →
      Db.delete st dcls colId args2 kwargs2 = .ok (s2, st2) →
      s1 = s2 ∧ st1 = st2) := by
  constructor
  · intro st dcls rt colId args1 args2 kwargs1 kwargs2 tnA i1 i2 s1 s2 r1 r2
      h1 h2 hc1 hc2 htn ha hf1 hf2
    simp only [Db.find, h1, h2, hc1, orErr_some, ok_bind] at hf1
    simp only [Db.find, h1, h2, hc2, orErr_some, ok_bind] at hf2
    rw [htn, ha] at hf1
    have heq := hf1.symm.trans hf2
    simp only [Except.ok.injEq, Prod.mk.injEq] at heq
    exact heq
  · intro st dcls rt colId args1 args2 kwargs1 kwargs2 tnA i1 i2 s1 s2 st1 st2
      h1 h2 hc1 hc2 htn ha hd1 hd2
    simp only [Db.delete, h1, h2, hc1, orErr_some, ok_bind] at hd1
    simp only [Db.delete, h1, h2, hc2, orErr_some, ok_bind] at hd2
    rw [htn, ha] at hd1
    have heq := hd1.symm.trans hd2
    simp only [Except.ok.injEq, Prod.mk.injEq] at heq
    exact heq

/-- C10 witness: on `rowSt`, `find("al")` vs `find("al", nickname="zz")` and
`delete("al")` vs `delete("al", nickname="zz")` produce identical statements
and results, by `C10_find_delete_query_determined`. -/
theorem C10_find_delete_query_determined_witness :
    Db.find rowSt usersRt none [vStr "al"] [] =
      Db.find rowSt usersRt none [vStr "al"] [("nickname", vStr "zz")] ∧
    Db.delete rowSt usersRt none [vStr "al"] [] =
      Db.delete rowSt usersRt none [vStr "al"] [("nickname", vStr "zz")] := by
  have hf1 : Db.find rowSt usersRt none [vStr "al"] [] =
      .ok (⟨"SELECT * FROM users WHERE username = ?", [vStr "al"]⟩,
        [("username", vStr "al"), ("nickname", vStr "nick"),
         ("table_name", vStr "users")]) := by decide
  have hf2 : Db.find rowSt usersRt none [vStr "al"] [("nickname", vStr "zz")] =
      .ok (⟨"SELECT * FROM users WHERE username = ?", [vStr "al"]⟩,
        [("username", vStr "al"), ("nickname", vStr "nick"),
         ("table_name", vStr "users")]) := by decide
  have hd1 : Db.delete rowSt usersRt none [vStr "al"] [] =
      .ok (⟨"DELETE FROM users WHERE username = ?", [vStr "al"]⟩, usersSt) := by decide
  have hd2 : Db.delete rowSt usersRt none [vStr "al"] [("nickname", vStr "zz")] =
      .ok (⟨"DELETE FROM users WHERE username = ?", [vStr "al"]⟩, usersSt) := by decide
  have happF := (C10_find_delete_query_determined).1 rowSt usersRt usersRt none
    [vStr "al"] [vStr "al"] [] [("nickname", vStr "zz")] (vStr "users")
    [("username", vStr "al"), ("nickname", vNone), ("table_name", vStr "users")]
    [("username", vStr "al"), ("nickname", vStr "zz"), ("table_name", vStr "users")]
    _ _ _ _ (by decide) (by decide) (by decide) (by decide) (by decide) (by decide)
    hf1 hf2
  have happD := (C10_find_delete_query_determined).2 rowSt usersRt usersRt none
    [vStr "al"] [vStr "al"] [] [("nickname", vStr "zz")] (vStr "users")
    [("username", vStr "al"), ("nickname", vNone), ("table_name", vStr "users")]
    [("username", vStr "al"), ("nickname", vStr "zz"), ("table_name", vStr "users")]
    _ _ _ _ (by decide) (by decide) (by decide) (by decide) (by decide) (by decide)
    hd1 hd2
  exact ⟨hf1.trans hf2.symm, hd1.trans hd2.symm⟩

/-- C10 counterexample: two delete invocations with the same first
positional argument — `delete("x")` and `delete("x", table_name="evil")` on
the same bound operation — both construct their record successfully yet
execute different SQL texts (`DELETE FROM users ...` vs `DELETE FROM evil
...`): the statement does not depend only on the captured table name,
identifying column, and first positional argument. -/
theorem C10_delete_tablename_override_counterexample :
    (Db.delete evilSt usersRt (some "username") [vStr "x"] []).map (fun p => p.1) =
      .ok ⟨"DELETE FROM users WHERE username = ?", [vStr "x"]⟩ ∧
    (Db.delete evilSt usersRt (some "username") [vStr "x"]
        [("table_name", vStr "evil")]).map (fun p => p.1) =
      .ok ⟨"DELETE FROM evil WHERE username = ?", [vStr "x"]⟩ := by
  exact ⟨by decide, by decide⟩

end AIODesa
